import Mathlib

/-!
Verification development for the org-health-check tool
(coveooss/product-intelligence-tools).

The definitions below are a shallow embedding of the Python sources under
`src/org_health_check/` (`api.py`, `resourcesPrivate.py`, `resources.py`,
`csvwriter.py`).  Remote HTTP endpoints are modelled as oracles
`Nat → Option (PageResponse α)` (page number to response, `none` = the
underlying `Api.call` returned `False`), and the unbounded Python `while`
loop of `Api.callPaged` is modelled with explicit fuel: the value `none`
of the outer `Option` means the loop was still running when the fuel ran
out, so divergence of the Python loop corresponds to the function
returning `none` for every fuel.
-/

/-- One page response of a paginated endpoint, as consumed by
`Api.callPaged` in `api.py`.  `arr` is the value of `getCurrArray()`
(the raw JSON response in bare-array mode, the value under `arrayKey`
in wrapped mode); `pageCount` is the value under `pageCountKey` when
that key is configured (it is never read otherwise). -/
structure PageResponse (α : Type) where
  arr : List α
  pageCount : Nat
deriving Repr, DecidableEq

namespace Api

/-- The loop of `Api.callPaged` (`api.py` lines 86-103), as a
fuel-indexed recursion.  Arguments: the remote oracle, whether a
`pageCountKey` is configured (`pck`), remaining fuel, the current page
number, the list of page numbers called so far, and the accumulated
`totalResponse`.  The result records the pages actually called together
with either `Except.error ()` (the Python `return False` on a failed
call, carrying no items) or `Except.ok` of the accumulated items.
The first loop iteration always runs (`currPageNum == startPage`);
afterwards the loop continues iff the just-fetched page was non-empty
(no page-count key) or `currPageNum < currResponse[pageCountKey]`
(page-count key configured), with `currPageNum` already incremented. -/
def callPagedGo (remote : Nat → Option (PageResponse α)) (pck : Bool) :
    Nat → Nat → List Nat → List α → Option (List Nat × Except Unit (List α))
  | 0, _, _, _ => none
  | fuel + 1, p, calls, acc =>
    match remote p with
    | none => some (calls ++ [p], Except.error ())
    | some r =>
      let next := callPagedGo remote pck fuel (p + 1) (calls ++ [p]) (acc ++ r.arr)
      let stop := some (calls ++ [p], Except.ok (acc ++ r.arr))
      if pck then
        if p + 1 < r.pageCount then next else stop
      else
        if 0 < r.arr.length then next else stop

/-- `Api.callPaged` (`api.py` lines 74-103): run the pagination loop
from `startPage` with empty accumulators. -/
def callPaged (remote : Nat → Option (PageResponse α)) (pck : Bool)
    (startPage fuel : Nat) : Option (List Nat × Except Unit (List α)) :=
  callPagedGo remote pck fuel startPage [] []

end Api

/-- A scripted fake endpoint: page `startPage + i` answers successfully
with the `i`-th list of `ls` (the empty array beyond the end of `ls`),
always declaring `pc` under the page-count key. -/
def pagesRemote (ls : List (List α)) (pc : Nat) (startPage : Nat) :
    Nat → Option (PageResponse α) :=
  fun p => some ⟨ls.getD (p - startPage) [], pc⟩

/-- A misbehaving endpoint that answers every page with the same
non-empty array and never declares an end. -/
def alwaysFull : Nat → Option (PageResponse Nat) :=
  fun _ => some ⟨[0], 0⟩

/-- A scripted endpoint whose first two pages succeed with one item each
and whose third page fails (the underlying call returns `False`). -/
def failAtTwo : Nat → Option (PageResponse Nat) :=
  fun p => if p < 2 then some ⟨[p], 0⟩ else none

/-- The continuation test of the `Api.callPaged` loop after fetching
page `p` with response `r` (for iterations after the first). -/
def contOk (pck : Bool) (p : Nat) (r : PageResponse α) : Prop :=
  if pck then p + 1 < r.pageCount else 0 < r.arr.length

/-!
## Conditions checker (`resourcesPrivate.py`, class `CheckCondition`)

A condition is modelled by the two fields the checker reads
(`definition` and `id`); note the sentinel
`{'definition': 'NO CONDITION', 'id': 'NO CONDITION'}` has exactly these
two keys in the source, so Python dict equality against it corresponds
to structural equality here.  A query-pipeline statement carries its
`feature`, its textual `definition` and the id of its condition (after
`initialize` has substituted the sentinel for a missing condition), and
a pipeline carries its `name`, its condition id and its statements.
Messages carry the reason as a symbolic value; `renderReason` produces
the exact string built by the source. -/

structure Condition where
  definition : String
  id : String
deriving Repr, DecidableEq

structure Stmt where
  feature : String
  definition : String
  condId : String
deriving Repr, DecidableEq, Inhabited

structure Qp where
  name : String
  condId : String
  statements : List Stmt
deriving Repr, DecidableEq, Inhabited

/-- The sub-messages produced inside the pairwise statement loop
(`addStmtMsg` in `CheckCondition.checkOne`). -/
inductive StmtBase where
  | redirectTrigger
  | multipleQueryTriggers
  | multipleRankingweights
  | multipleOverrideParameter
deriving Repr, DecidableEq

/-- The reasons `CheckCondition.checkOne` can attach to a message. -/
inductive Reason where
  | notAssociated
  | conflictShared (k : Nat) (names : List String)
  | stmtMsg (base : StmtBase) (qpName d1 d2 : String)
deriving Repr, DecidableEq

/-- The `Message` namedtuple `(name, id, reason)`. -/
structure Message where
  name : String
  id : String
  reason : Reason
deriving Repr, DecidableEq

def renderStmtBase : StmtBase → String
  | .redirectTrigger => "redirect trigger RUNS ON SAME CONDITION AS OTHER trigger"
  | .multipleQueryTriggers => "MULTIPLE query triggers"
  | .multipleRankingweights => "MULTIPLE rankingweights ON SAME FACTOR"
  | .multipleOverrideParameter => "MULTIPLE OVERRIDE PARAMETER"

/-- The exact reason strings built by `CheckCondition.checkOne`. -/
def renderReason : Reason → String
  | .notAssociated => "NOT ASSOCIATED WITH ANY QUERY PIPELINE OR STATEMENT"
  | .conflictShared k names =>
      "CONFLICT: SHARED BY " ++ toString k ++ " QUERY PIPELINES " ++
        String.intercalate "," names
  | .stmtMsg b qpName d1 d2 =>
      renderStmtBase b ++ " IN QUERY PIPELINE " ++ qpName ++ ": " ++ d1 ++ ", " ++ d2

namespace CheckCondition

/-- The sentinel `self.noCondition`. -/
def noCondition : Condition := ⟨"NO CONDITION", "NO CONDITION"⟩

/-- The A/B-test filter of `CheckCondition.initialize`
(`resourcesPrivate.py` line 216): keep only pipelines whose name does
not contain the substring `-mirror-`. -/
def filterMirrorQps (qps : List Qp) : List Qp :=
  qps.filter (fun qp => ! (decide ("-mirror-".data <:+: qp.name.data)))

/-- `re.findall('\d+', s)`: the maximal runs of decimal digits in `s`,
in order, as strings.  `run` is the current (reversed) digit run. -/
def digitRunsGo : List Char → List Char → List String
  | [], run => if run.isEmpty then [] else [String.mk run.reverse]
  | c :: rest, run =>
    if c.isDigit then digitRunsGo rest (c :: run)
    else if run.isEmpty then digitRunsGo rest []
    else String.mk run.reverse :: digitRunsGo rest []

def digitRuns (s : String) : List String := digitRunsGo s.data []

/-- The ranking-weight comparison (`resourcesPrivate.py` lines 289-291):
zip the numeric tokens of the two definitions and look for a position
where both weights differ from `'5'` and from each other. -/
def rankConflict (d1 d2 : String) : Bool :=
  ((digitRuns d1).zip (digitRuns d2)).any
    (fun f => (f.1 != "5") && (f.2 != "5") && (f.1 != f.2))

/-- Worker for `pySplit`: scan `remaining` left to right; on each
non-overlapping occurrence of the (non-empty) separator emit the
segment collected so far.  `fuel` only forces structural recursion; it
never runs out when it starts above `remaining.length`. -/
def pySplitGo (sep : List Char) : Nat → List Char → List Char → List (List Char)
  | 0, remaining, cur => [cur.reverse ++ remaining]
  | fuel + 1, remaining, cur =>
    match remaining with
    | [] => [cur.reverse]
    | c :: rest =>
      if sep.isPrefixOf (c :: rest) then
        cur.reverse :: pySplitGo sep fuel ((c :: rest).drop sep.length) []
      else
        pySplitGo sep fuel rest (c :: cur)

/-- Python `s.split(sep)` for a non-empty separator `sep`. -/
def pySplit (s sep : String) : List String :=
  (pySplitGo sep.data (s.data.length + 1) s.data []).map (fun cs => String.mk cs)

/-- The queryParamOverride parse (`resourcesPrivate.py` lines 299-301):
`(definition.split(':')[0].split('override ')[1], definition.split(':')[1])`.
`none` models the `IndexError` Python raises when an index is missing. -/
def parseOverride (d : String) : Option (String × String) :=
  let colonParts := pySplit d ":"
  match (pySplit (colonParts.getD 0 "") "override ").get? 1, colonParts.get? 1 with
  | some n, some v => some (n, v)
  | _, _ => none

/-- The spec's reading of the override parameter name: the text between
`override ` and the first colon.  (Same as the code's.) -/
def specOverrideName (d : String) : Option String :=
  (pySplit (((pySplit d ":").getD 0 "")) "override ").get? 1

/-- Modelled from the spec's words for comparison: the override value as
"the entire remainder of the definition after that first colon". -/
def specOverrideValue (d : String) : Option String :=
  match pySplit d ":" with
  | [] => none
  | [_] => none
  | _ :: rest => some (String.intercalate ":" rest)

/-- The index pairs visited by
`for i in range(n): for j in range(i + 1, n): ...`
(`resourcesPrivate.py` lines 264-265), in loop order. -/
def pairIndices (n : Nat) : List (Nat × Nat) :=
  (List.range n).flatMap (fun i => (List.range' (i + 1) (n - (i + 1))).map (fun j => (i, j)))

/-- The conflict tests of the pairwise statement loop of
`CheckCondition.checkOne` (`resourcesPrivate.py` lines 266-307) for one
pair `(stmt, stmt2)`, each a statement tagged with its pipeline
(`stmt['qp']`): which conflicts are flagged, in source order.
`Except.error ()` models the uncaught `IndexError` of the override
parse on a malformed definition. -/
def pairConflicts (p q : Qp × Stmt) : Except Unit (List StmtBase) :=
  if p.1 = q.1 ∧ p.2.feature = q.2.feature then
    let triggerHits : List StmtBase :=
      if p.2.feature = "trigger" then
        if p.2.definition.startsWith "redirect" ∨ q.2.definition.startsWith "redirect" then
          [.redirectTrigger]
        else if p.2.definition.startsWith "query" ∧ q.2.definition.startsWith "query" then
          [.multipleQueryTriggers]
        else []
      else []
    let rankHits : List StmtBase :=
      if p.2.feature = "rankingweight" ∧ rankConflict p.2.definition q.2.definition = true then
        [.multipleRankingweights]
      else []
    if p.2.feature = "queryParamOverride" then
      match parseOverride p.2.definition, parseOverride q.2.definition with
      | some a, some b =>
        Except.ok (triggerHits ++ rankHits ++
          (if a.1 = b.1 ∧ a.2 ≠ b.2 then [.multipleOverrideParameter] else []))
      | _, _ => Except.error ()
    else Except.ok (triggerHits ++ rankHits)
  else Except.ok []

/-- The messages of the pairwise loop for one pair: `addStmtMsg` applied
to each flagged conflict. -/
def pairMsgs (c : Condition) (p q : Qp × Stmt) : Except Unit (List Message) :=
  Except.map
    (List.map (fun b =>
      Message.mk c.definition c.id (Reason.stmtMsg b p.1.name p.2.definition q.2.definition)))
    (pairConflicts p q)

/-- The whole pairwise loop over `stmtAssoc`. -/
def pairwiseMsgs (c : Condition) (sa : List (Qp × Stmt)) : Except Unit (List Message) :=
  (pairIndices sa.length).foldlM
    (fun acc ij => Except.map (fun ms => acc ++ ms)
      (pairMsgs c (sa.getD ij.1 default) (sa.getD ij.2 default)))
    []

/-- `CheckCondition.checkOne` (`resourcesPrivate.py` lines 237-312),
with the pipeline set `allQps` built by `initialize` as context.
Appends, in source order: the orphan message, the shared-condition
conflict message, then the pairwise statement messages. -/
def checkOne (allQps : List Qp) (condition : Condition) : Except Unit (List Message) :=
  let qpAssoc := allQps.filter (fun qp => qp.condId == condition.id)
  let stmtAssoc := allQps.flatMap (fun qp =>
    (qp.statements.filter (fun st => st.condId == condition.id)).map (fun st => (qp, st)))
  let orphanMsgs : List Message :=
    if qpAssoc.length < 1 ∧ stmtAssoc.length < 1 then
      [Message.mk condition.definition condition.id .notAssociated]
    else []
  let sharedMsgs : List Message :=
    if 1 < qpAssoc.length ∧ condition ≠ noCondition then
      [Message.mk condition.definition condition.id
        (.conflictShared qpAssoc.length (qpAssoc.map Qp.name))]
    else []
  Except.map (fun pm => orphanMsgs ++ sharedMsgs ++ pm) (pairwiseMsgs condition stmtAssoc)

end CheckCondition

/-- A pipeline holding two statements of the same `feature` that both
reference condition `cid`; the pipeline itself also references `cid`. -/
def twoStmtQp (feature qpName cid d1 d2 : String) : Qp :=
  ⟨qpName, cid, [⟨feature, d1, cid⟩, ⟨feature, d2, cid⟩]⟩

/-!
## Usage-analytics validation (`CheckQp.initialize`, `CheckField.initialize`)
-/

/-- One usage record returned by the analytics capability, e.g.
`{'OccurrenceCount': 1, 'SEARCHES.QUERYPIPELINE': name}`:
the occurrence count together with the dimension value. -/
structure UaRecord where
  occurrenceCount : Int
  value : String
deriving Repr, DecidableEq

/-- The first record of the list whose occurrence count is non-positive,
if any (the record on which the Python validation loop raises). -/
def findBadOcc : List UaRecord → Option UaRecord
  | [] => none
  | r :: rest => if r.occurrenceCount ≤ 0 then some r else findBadOcc rest

namespace CheckQp

/-- The usage-analytics part of `CheckQp.initialize`
(`resourcesPrivate.py` lines 324-329): raise `ValueError(str(qp))` on
the first record with `OccurrenceCount <= 0` (`Except.error` carries
that record), otherwise keep only the pipeline names. -/
def uaNames (recs : List UaRecord) : Except UaRecord (List String) :=
  match findBadOcc recs with
  | some r => Except.error r
  | none => Except.ok (recs.map UaRecord.value)

end CheckQp

namespace CheckField

/-- Field-name normalization in `CheckField.initialize`: prepend `@`
when missing. -/
def normalizeName (s : String) : String :=
  if s.startsWith "@" then s else "@" ++ s

/-- `re.search(r'_\d+$', name)` as a Bool: the name ends with `_`
followed by one or more digits. -/
def endsUnderscoreNum (s : String) : Bool :=
  let rev := s.data.reverse
  let digits := rev.takeWhile Char.isDigit
  (! digits.isEmpty) &&
    (match rev.drop digits.length with
     | '_' :: _ => true
     | _ => false)

/-- The usage-analytics part of `CheckField.initialize`
(`resourcesPrivate.py` lines 533-546): raise `ValueError(str(f))` on the
first record with `OccurrenceCount <= 0`; otherwise normalize the field
name and drop duplicated multi-value variants ending in `_<number>`. -/
def fieldsWithUa : List UaRecord → Except UaRecord (List String)
  | [] => Except.ok []
  | f :: rest =>
    if f.occurrenceCount ≤ 0 then Except.error f
    else
      Except.map
        (fun ns =>
          let name := normalizeName f.value
          if endsUnderscoreNum name then ns else name :: ns)
        (fieldsWithUa rest)

end CheckField

/-!
## `CheckResource.check` and `CsvWriter` (`resources.py` lines 24-45,
`resourcesPrivate.py` lines 60-89, `csvwriter.py` lines 10-20)
-/

/-- Outcome of running a piece of Python code: a value, or an uncaught
exception identified by its class name. -/
inductive PyResult (α : Type) where
  | ok (a : α)
  | exn (name : String)
deriving Repr, DecidableEq

/-- The instance attributes that `CsvWriter.__init__` defines
(`csvwriter.py` lines 10-17): `fileName`, `fileDesc` and `w` — and
nothing else; in particular no attribute `f`. -/
def csvWriterAttrs : List String := ["fileName", "fileDesc", "w"]

/-- Python attribute lookup on a `CsvWriter` instance: `some ()` when
the attribute exists, `none` for the `AttributeError` case. -/
def csvWriterGetAttr (attr : String) : Option Unit :=
  if attr ∈ csvWriterAttrs then some () else none

/-- Python `try: body finally: fin` semantics for our purposes: an
exception raised by the `finally` block replaces the body's outcome
(return value or exception); otherwise the body's outcome stands. -/
def pyTryFinally (body : PyResult α) (fin : PyResult Unit) : PyResult α :=
  match fin with
  | .exn e => .exn e
  | .ok _ => body

namespace CheckResource

/-- `CheckResource.check`: whatever the `try` body does (`body` is its
outcome; `.ok true` would be the `return True` path), the `finally`
block evaluates `writer.f.close()`, i.e. looks up attribute `f` on the
`CsvWriter` instance.  Identical in `resources.py` and
`resourcesPrivate.py`. -/
def check (body : PyResult Bool) : PyResult Bool :=
  pyTryFinally body
    (match csvWriterGetAttr "f" with
     | none => .exn "AttributeError"
     | some _ => .ok ())

end CheckResource


/-!
## Theorems

First some step lemmas about the pagination loop, then the claim
theorems with their witnesses.
-/

theorem go_fail {α : Type} {remote : Nat → Option (PageResponse α)} {pck : Bool}
    {fuel p : Nat} {calls : List Nat} {acc : List α} (hr : remote p = none) :
    Api.callPagedGo remote pck (fuel + 1) p calls acc =
      some (calls ++ [p], Except.error ()) := by
  simp [Api.callPagedGo, hr]

theorem go_continue {α : Type} {remote : Nat → Option (PageResponse α)} {pck : Bool}
    {fuel p : Nat} {calls : List Nat} {acc : List α} {r : PageResponse α}
    (hr : remote p = some r) (hc : contOk pck p r) :
    Api.callPagedGo remote pck (fuel + 1) p calls acc =
      Api.callPagedGo remote pck fuel (p + 1) (calls ++ [p]) (acc ++ r.arr) := by
  cases pck <;> simp_all [Api.callPagedGo, hr, contOk]

theorem go_stop {α : Type} {remote : Nat → Option (PageResponse α)} {pck : Bool}
    {fuel p : Nat} {calls : List Nat} {acc : List α} {r : PageResponse α}
    (hr : remote p = some r) (hc : ¬ contOk pck p r) :
    Api.callPagedGo remote pck (fuel + 1) p calls acc =
      some (calls ++ [p], Except.ok (acc ++ r.arr)) := by
  cases pck <;> simp_all [Api.callPagedGo, hr, contOk]

theorem go_term_bare {α : Type} (remote : Nat → Option (PageResponse α)) :
    ∀ (k s : Nat) (calls : List Nat) (acc : List α),
    (∀ r, remote (s + k) = some r → r.arr = []) →
    ∃ out, Api.callPagedGo remote false (k + 1) s calls acc = some out := by
  intro k
  induction k with
  | zero =>
    intro s calls acc h
    cases hr : remote s with
    | none => exact ⟨_, go_fail hr⟩
    | some r =>
      have harr : r.arr = [] := h r (by simpa using hr)
      exact ⟨_, go_stop hr (by simp [contOk, harr])⟩
  | succ k ih =>
    intro s calls acc h
    cases hr : remote s with
    | none => exact ⟨_, go_fail hr⟩
    | some r =>
      by_cases hc : 0 < r.arr.length
      · have h' : ∀ r', remote (s + 1 + k) = some r' → r'.arr = [] := by
          intro r' hr'
          exact h r' (by rwa [show s + (k + 1) = s + 1 + k by omega])
        obtain ⟨out, hout⟩ := ih (s + 1) (calls ++ [s]) (acc ++ r.arr) h'
        exact ⟨out, by rw [go_continue hr (by simpa [contOk] using hc)]; exact hout⟩
      · exact ⟨_, go_stop hr (by simpa [contOk] using hc)⟩

theorem go_term_wrapped {α : Type} (remote : Nat → Option (PageResponse α)) (N : Nat)
    (hN : ∀ p r, remote p = some r → r.pageCount ≤ N) :
    ∀ (fuel s : Nat) (calls : List Nat) (acc : List α),
    N ≤ s + fuel →
    ∃ out, Api.callPagedGo remote true (fuel + 1) s calls acc = some out := by
  intro fuel
  induction fuel with
  | zero =>
    intro s calls acc hle
    cases hr : remote s with
    | none => exact ⟨_, go_fail hr⟩
    | some r =>
      have hc : ¬ (s + 1 < r.pageCount) := by have := hN s r hr; omega
      exact ⟨_, go_stop hr (by simpa [contOk] using hc)⟩
  | succ fuel ih =>
    intro s calls acc hle
    cases hr : remote s with
    | none => exact ⟨_, go_fail hr⟩
    | some r =>
      by_cases hc : s + 1 < r.pageCount
      · obtain ⟨out, hout⟩ := ih (s + 1) (calls ++ [s]) (acc ++ r.arr) (by omega)
        exact ⟨out, by rw [go_continue hr (by simpa [contOk] using hc)]; exact hout⟩
      · exact ⟨_, go_stop hr (by simpa [contOk] using hc)⟩

theorem map_add_range_succ (s n : Nat) :
    (List.range (n + 1)).map (fun j => s + j) =
      s :: (List.range n).map (fun j => s + 1 + j) := by
  rw [List.range_succ_eq_map]
  simp only [List.map_cons, List.map_map, Nat.add_zero]
  congr 1
  apply List.map_congr_left
  intro a _
  simp [Function.comp]
  omega

theorem go_failure_no_partial {α : Type} (remote : Nat → Option (PageResponse α))
    (pck : Bool) :
    ∀ (k fuel s : Nat) (calls : List Nat) (acc : List α), k < fuel →
    (∀ j, j < k → ∃ r, remote (s + j) = some r ∧ contOk pck (s + j) r) →
    remote (s + k) = none →
    Api.callPagedGo remote pck fuel s calls acc =
      some (calls ++ (List.range (k + 1)).map (fun j => s + j), Except.error ()) := by
  intro k
  induction k with
  | zero =>
    intro fuel s calls acc hf _ hfail
    obtain ⟨f', rfl⟩ : ∃ f', fuel = f' + 1 := ⟨fuel - 1, by omega⟩
    rw [go_fail (by simpa using hfail)]
    rw [show List.range 1 = [0] from rfl]
    simp
  | succ k ih =>
    intro fuel s calls acc hf hbefore hfail
    obtain ⟨f', rfl⟩ : ∃ f', fuel = f' + 1 := ⟨fuel - 1, by omega⟩
    obtain ⟨r, hr, hcont⟩ := hbefore 0 (by omega)
    rw [go_continue (by simpa using hr) (by simpa using hcont)]
    have hshift : ∀ j, j < k → ∃ r', remote (s + 1 + j) = some r' ∧ contOk pck (s + 1 + j) r' := by
      intro j hj
      have he : s + (j + 1) = s + 1 + j := by omega
      obtain ⟨r', h1, h2⟩ := hbefore (j + 1) (by omega)
      rw [he] at h1 h2
      exact ⟨r', h1, h2⟩
    have hfail' : remote (s + 1 + k) = none := by
      rwa [show s + (k + 1) = s + 1 + k by omega] at hfail
    rw [ih f' (s + 1) (calls ++ [s]) (acc ++ r.arr) (by omega) hshift hfail']
    rw [map_add_range_succ s (k + 1)]
    simp

/-- Claim C1: over pages of sizes `[3,3,3,0]`, a bare-array-mode fetch
(`arrayKey` and `pageCountKey` both absent) calls pages
`startPage..startPage+3` and returns exactly the 9 items concatenated
in original relative order; in wrapped mode with a declared total page
count of 3 (pages `startPage..startPage+2`), it issues exactly those 3
calls and returns the concatenation of the three array-key payloads. -/
theorem claim_C1_callPaged_pagination :
    (∀ (α : Type) (l0 l1 l2 : List α) (s : Nat),
      l0.length = 3 → l1.length = 3 → l2.length = 3 →
      Api.callPaged (pagesRemote [l0, l1, l2] 0 s) false s 4 =
        some ([s, s + 1, s + 2, s + 3], Except.ok (l0 ++ l1 ++ l2)) ∧
      (l0 ++ l1 ++ l2).length = 9)
    ∧ (∀ (α : Type) (l0 l1 l2 : List α) (s : Nat),
      Api.callPaged (pagesRemote [l0, l1, l2] (s + 3) s) true s 3 =
        some ([s, s + 1, s + 2], Except.ok (l0 ++ l1 ++ l2))) := by
  constructor
  · intro α l0 l1 l2 s h0 h1 h2
    have e0 : s - s = 0 := by omega
    have e1 : s + 1 - s = 1 := by omega
    have e2 : s + 2 - s = 2 := by omega
    have e3 : s + 3 - s = 3 := by omega
    constructor
    · simp [Api.callPaged, Api.callPagedGo, pagesRemote, e0, e1, e2, e3, h0, h1, h2]
    · simp [h0, h1, h2]
  · intro α l0 l1 l2 s
    have e0 : s - s = 0 := by omega
    have e1 : s + 1 - s = 1 := by omega
    have e2 : s + 2 - s = 2 := by omega
    have c0 : s + 1 < s + 3 := by omega
    have c1 : s + 1 + 1 < s + 3 := by omega
    have c2 : ¬ (s + 2 + 1 < s + 3) := by omega
    simp [Api.callPaged, Api.callPagedGo, pagesRemote, e0, e1, e2, c0, c1, c2]

theorem claim_C1_witness :
    ([10, 20, 30] : List Nat).length = 3 ∧ ([4, 5, 6] : List Nat).length = 3 ∧
    ([7, 8, 9] : List Nat).length = 3 ∧
    Api.callPaged (pagesRemote [[10, 20, 30], [4, 5, 6], [7, 8, 9]] 0 2) false 2 4 =
      some ([2, 3, 4, 5], Except.ok [10, 20, 30, 4, 5, 6, 7, 8, 9]) ∧
    Api.callPaged (pagesRemote [[10, 20, 30], [4, 5, 6], [7, 8, 9]] 5 2) true 2 3 =
      some ([2, 3, 4], Except.ok [10, 20, 30, 4, 5, 6, 7, 8, 9]) := by
  refine ⟨rfl, rfl, rfl, ?_, ?_⟩
  · have := (claim_C1_callPaged_pagination.1 Nat [10, 20, 30] [4, 5, 6] [7, 8, 9] 2
      rfl rfl rfl).1
    simpa using this
  · have := claim_C1_callPaged_pagination.2 Nat [10, 20, 30] [4, 5, 6] [7, 8, 9] 2
    simpa using this

theorem alwaysFull_go_none : ∀ (fuel p : Nat) (calls : List Nat) (acc : List Nat),
    Api.callPagedGo alwaysFull false fuel p calls acc = none := by
  intro fuel
  induction fuel with
  | zero => intro p calls acc; rfl
  | succ n ih =>
    intro p calls acc
    rw [go_continue (r := ⟨[0], 0⟩) rfl (by simp [contOk])]
    exact ih _ _ _

/-- Claim C2, counterexample: against the misbehaving endpoint
`alwaysFull` (every page succeeds with a non-empty array, no page-count
key configured), `Api.callPaged` never terminates: it exhausts every
fuel, so the claim that the loop terminates for every remote response
sequence is false. -/
theorem claim_C2_counterexample :
    (∀ p, alwaysFull p = some ⟨[0], 0⟩) ∧
    ¬ ∃ (fuel : Nat) (out : List Nat × Except Unit (List Nat)),
        Api.callPaged alwaysFull false 0 fuel = some out := by
  refine ⟨fun p => rfl, ?_⟩
  rintro ⟨fuel, out, hout⟩
  rw [Api.callPaged, alwaysFull_go_none] at hout
  exact Option.noConfusion hout

/-- Claim C2, amended: the `Api.callPaged` loop terminates when the
remote honours the pagination contract — with no page-count key, as
soon as some page at or after `startPage` fails or returns an empty
array (within `k + 1` calls when that page is `startPage + k`); with a
page-count key whose declared values are bounded by a fixed `N`, within
`N - startPage + 1` calls.  A misbehaving endpoint that never returns
an empty page when no page-count key is configured hangs the fetch
(see the counterexample). -/
theorem claim_C2_amended_termination :
    (∀ (α : Type) (remote : Nat → Option (PageResponse α)) (s k : Nat),
      (∀ r, remote (s + k) = some r → r.arr = []) →
      ∃ out, Api.callPaged remote false s (k + 1) = some out)
    ∧ (∀ (α : Type) (remote : Nat → Option (PageResponse α)) (N s fuel : Nat),
      (∀ p r, remote p = some r → r.pageCount ≤ N) → N ≤ s + fuel →
      ∃ out, Api.callPaged remote true s (fuel + 1) = some out) := by
  constructor
  · intro α remote s k h
    exact go_term_bare remote k s [] [] h
  · intro α remote N s fuel hN hle
    exact go_term_wrapped remote N hN fuel s [] [] hle

theorem claim_C2_witness :
    (∀ r, pagesRemote [[1], [2]] 0 0 (0 + 2) = some r → r.arr = ([] : List Nat)) ∧
    (∃ out, Api.callPaged (pagesRemote [[1], [2]] 0 0) false 0 (2 + 1) = some out) ∧
    (∀ p r, pagesRemote [[1], [2], [3]] 3 0 p = some r → r.pageCount ≤ 3) ∧
    (3 ≤ 0 + 3) ∧
    (∃ out, Api.callPaged (pagesRemote [[1], [2], [3]] 3 0) true 0 (3 + 1) = some out) := by
  have hempty : ∀ r, pagesRemote [[1], [2]] 0 0 (0 + 2) = some r → r.arr = ([] : List Nat) := by
    intro r h
    simp only [pagesRemote] at h
    rw [← Option.some_inj.mp h]
    rfl
  have hbound : ∀ p r, pagesRemote [[1], [2], [3]] 3 0 p = some r → r.pageCount ≤ 3 := by
    intro p r h
    simp only [pagesRemote] at h
    rw [← Option.some_inj.mp h]
  refine ⟨hempty, ?_, hbound, by omega, ?_⟩
  · exact claim_C2_amended_termination.1 Nat (pagesRemote [[1], [2]] 0 0) 0 2 hempty
  · exact claim_C2_amended_termination.2 Nat (pagesRemote [[1], [2], [3]] 3 0) 3 0 3 hbound
      (by omega)

/-- Claim C3: if the underlying call fails at fetched page
`startPage + k` while every earlier fetched page succeeded and kept the
loop going, `Api.callPaged` returns the failure indicator itself
(`Except.error ()`, which carries no items): none of the items
accumulated from the `k` earlier successful pages are returned. -/
theorem claim_C3_failure_no_partial :
    ∀ (α : Type) (remote : Nat → Option (PageResponse α)) (pck : Bool) (s k fuel : Nat),
    k < fuel →
    (∀ j, j < k → ∃ r, remote (s + j) = some r ∧ contOk pck (s + j) r) →
    remote (s + k) = none →
    Api.callPaged remote pck s fuel =
      some ((List.range (k + 1)).map (fun j => s + j), Except.error ()) := by
  intro α remote pck s k fuel hf hbefore hfail
  exact go_failure_no_partial remote pck k fuel s [] [] hf hbefore hfail

theorem claim_C3_witness :
    (2 < 3) ∧
    (∀ j, j < 2 → ∃ r, failAtTwo (0 + j) = some r ∧ contOk false (0 + j) r) ∧
    failAtTwo (0 + 2) = none ∧
    Api.callPaged failAtTwo false 0 3 = some ([0, 1, 2], Except.error ()) := by
  have hbefore : ∀ j, j < 2 → ∃ r, failAtTwo (0 + j) = some r ∧ contOk false (0 + j) r := by
    intro j hj
    exact ⟨⟨[j], 0⟩, by simp [failAtTwo, hj], by simp [contOk]⟩
  refine ⟨by omega, hbefore, rfl, ?_⟩
  have := claim_C3_failure_no_partial Nat failAtTwo false 0 2 3 (by omega) hbefore rfl
  simpa using this

theorem sum_map_add_one (l : List Nat) (f : Nat → Nat) :
    (l.map (fun i => f i + 1)).sum = (l.map f).sum + l.length := by
  induction l with
  | nil => simp
  | cons a l ih => simp [ih]; omega

theorem nodup_count_eq_one {p : Nat × Nat} {l : List (Nat × Nat)}
    (hnd : l.Nodup) (hmem : p ∈ l) : l.count p = 1 := by
  induction l with
  | nil => simp at hmem
  | cons a l ih =>
    rw [List.nodup_cons] at hnd
    rcases List.mem_cons.mp hmem with rfl | hp
    · rw [List.count_cons_self, List.count_eq_zero.mpr hnd.1]
    · rw [List.count_cons_of_ne (by rintro rfl; exact hnd.1 hp)]
      exact ih hnd.2 hp

theorem pairIndices_length :
    ∀ n, (CheckCondition.pairIndices n).length = n * (n - 1) / 2 := by
  have key : ∀ n, ((List.range n).map (fun i => n - (i + 1))).sum = n * (n - 1) / 2 := by
    intro n
    induction n with
    | zero => simp
    | succ n ih =>
      rw [List.range_succ, List.map_append, List.sum_append]
      simp only [List.map_cons, List.map_nil, List.sum_cons, List.sum_nil]
      have hcongr : (List.range n).map (fun i => n + 1 - (i + 1)) =
          (List.range n).map (fun i => (n - (i + 1)) + 1) := by
        apply List.map_congr_left
        intro a ha
        have := List.mem_range.mp ha
        omega
      rw [hcongr, sum_map_add_one, ih]
      simp only [List.length_range, Nat.add_sub_cancel]
      have hrel : (n + 1) * n = n * (n - 1) + 2 * n := by
        cases n with
        | zero => simp
        | succ m =>
          simp only [Nat.succ_sub_one]
          ring
      omega
  intro n
  rw [CheckCondition.pairIndices, List.length_flatMap]
  simp only [Function.comp_def, List.length_map, List.length_range']
  exact key n

theorem pairIndices_mem :
    ∀ n p, p ∈ CheckCondition.pairIndices n ↔ (p.1 < p.2 ∧ p.2 < n) := by
  intro n p
  constructor
  · intro hp
    rw [CheckCondition.pairIndices, List.mem_flatMap] at hp
    obtain ⟨i, hi, hp⟩ := hp
    rw [List.mem_map] at hp
    obtain ⟨j, hj, rfl⟩ := hp
    have hj' := List.mem_range'_1.mp hj
    have hi' := List.mem_range.mp hi
    constructor <;> simp <;> omega
  · rintro ⟨h1, h2⟩
    rw [CheckCondition.pairIndices, List.mem_flatMap]
    refine ⟨p.1, List.mem_range.mpr (by omega), ?_⟩
    rw [List.mem_map]
    exact ⟨p.2, List.mem_range'_1.mpr (by omega), rfl⟩

theorem pairIndices_nodup : ∀ n, (CheckCondition.pairIndices n).Nodup := by
  intro n
  rw [CheckCondition.pairIndices]
  apply List.nodup_flatMap.mpr
  constructor
  · intro i _
    apply List.Nodup.map
    · intro a b hab
      exact (Prod.mk.injEq _ _ _ _).mp hab |>.2
    · exact List.nodup_range' _ _
  · apply List.Pairwise.imp ?_ (List.nodup_range (n := n))
    intro a b hab
    rw [Function.onFun, List.disjoint_left]
    intro p hp hq
    rw [List.mem_map] at hp hq
    obtain ⟨x, _, rfl⟩ := hp
    obtain ⟨y, _, hy⟩ := hq
    exact hab ((Prod.mk.injEq _ _ _ _).mp hy).1.symm

/-- Claim C4: the pairwise conflict-detection loop of
`CheckCondition.checkOne` (`for i in range(N): for j in range(i+1, N)`,
embedded as `pairIndices N`, the index list `pairwiseMsgs` folds over)
visits exactly `N*(N-1)/2` ordered index pairs `(i, j)`, always with
`i < j < N` (so no statement is compared with itself), and each pair of
distinct indices `i < j` is visited exactly once. -/
theorem claim_C4_pairwise_loop :
    ∀ n : Nat,
      (CheckCondition.pairIndices n).length = n * (n - 1) / 2 ∧
      (∀ p ∈ CheckCondition.pairIndices n, p.1 < p.2 ∧ p.2 < n) ∧
      (∀ i j, i < j → j < n → (CheckCondition.pairIndices n).count (i, j) = 1) := by
  intro n
  refine ⟨pairIndices_length n, fun p hp => (pairIndices_mem n p).mp hp, ?_⟩
  intro i j hij hjn
  exact nodup_count_eq_one (pairIndices_nodup n)
    ((pairIndices_mem n (i, j)).mpr ⟨hij, hjn⟩)

theorem claim_C4_witness :
    (CheckCondition.pairIndices 4).length = 4 * (4 - 1) / 2 ∧
    ((1, 3) ∈ CheckCondition.pairIndices 4 → (1, 3).1 < (1, 3).2 ∧ (1, 3).2 < 4) ∧
    (CheckCondition.pairIndices 4).count (1, 3) = 1 :=
  ⟨(claim_C4_pairwise_loop 4).1,
   (claim_C4_pairwise_loop 4).2.1 (1, 3),
   (claim_C4_pairwise_loop 4).2.2 1 3 (by omega) (by omega)⟩

theorem except_ok_bind {ε α β : Type} (a : α) (f : α → Except ε β) :
    (Except.ok a >>= f) = f a := rfl

theorem except_error_bind {ε α β : Type} (e : ε) (f : α → Except ε β) :
    ((Except.error e : Except ε α) >>= f) = Except.error e := rfl

theorem except_map_ok' {ε α β : Type} (f : α → β) (a : α) :
    Except.map f (Except.ok a : Except ε α) = Except.ok (f a) := rfl

theorem except_map_error' {ε α β : Type} (f : α → β) (e : ε) :
    Except.map f (Except.error e : Except ε α) = Except.error e := rfl

theorem pairIndices_two : CheckCondition.pairIndices 2 = [(0, 1)] := rfl

theorem checkOne_twoStmt (feature qpName cid cdef d1 d2 : String) :
    CheckCondition.checkOne [twoStmtQp feature qpName cid d1 d2] ⟨cdef, cid⟩ =
      CheckCondition.pairMsgs ⟨cdef, cid⟩
        (twoStmtQp feature qpName cid d1 d2, ⟨feature, d1, cid⟩)
        (twoStmtQp feature qpName cid d1 d2, ⟨feature, d2, cid⟩) := by
  cases hpm : CheckCondition.pairMsgs ⟨cdef, cid⟩
      (twoStmtQp feature qpName cid d1 d2, ⟨feature, d1, cid⟩)
      (twoStmtQp feature qpName cid d1 d2, ⟨feature, d2, cid⟩) with
  | error e =>
    simp only [twoStmtQp] at hpm
    simp [CheckCondition.checkOne, CheckCondition.pairwiseMsgs, twoStmtQp,
      pairIndices_two, List.foldlM, hpm, Except.map]
  | ok ms =>
    simp only [twoStmtQp] at hpm
    simp [CheckCondition.checkOne, CheckCondition.pairwiseMsgs, twoStmtQp,
      pairIndices_two, List.foldlM, hpm, Except.map]

theorem pairMsgs_rank (qp : Qp) (cdef cid d1 d2 : String) :
    CheckCondition.pairMsgs ⟨cdef, cid⟩
        (qp, ⟨"rankingweight", d1, cid⟩) (qp, ⟨"rankingweight", d2, cid⟩) =
      Except.ok (if CheckCondition.rankConflict d1 d2 = true then
        [Message.mk cdef cid (Reason.stmtMsg .multipleRankingweights qp.name d1 d2)]
      else []) := by
  simp [CheckCondition.pairMsgs, CheckCondition.pairConflicts]
  split <;> simp [Except.map]

theorem rankConflict_iff (d1 d2 : String) :
    CheckCondition.rankConflict d1 d2 = true ↔
      ∃ f ∈ (CheckCondition.digitRuns d1).zip (CheckCondition.digitRuns d2),
        f.1 ≠ "5" ∧ f.2 ≠ "5" ∧ f.1 ≠ f.2 := by
  simp only [CheckCondition.rankConflict, List.any_eq_true, Bool.and_eq_true, bne_iff_ne,
    Prod.exists, ne_eq]
  tauto

/-- Claim C5: for two rankingweight statements in the same pipeline
sharing a condition, `CheckCondition.checkOne` emits the
"MULTIPLE rankingweights ON SAME FACTOR" message exactly when, pairing
up the numeric tokens of the two definitions in order, some position
has both values different from `"5"` and different from each other;
in particular `"rank title: 7, docDate: 5"` vs
`"rank title: 9, docDate: 5"` yields the message, while two statements
differing only on a factor where one side is 5 yield none. -/
theorem claim_C5_rankingweight_conflict :
    (∀ (d1 d2 qpName cid cdef : String),
      ∃ msgs, CheckCondition.checkOne [twoStmtQp "rankingweight" qpName cid d1 d2]
          ⟨cdef, cid⟩ = Except.ok msgs ∧
        (Message.mk cdef cid (Reason.stmtMsg .multipleRankingweights qpName d1 d2) ∈ msgs ↔
          ∃ f ∈ (CheckCondition.digitRuns d1).zip (CheckCondition.digitRuns d2),
            f.1 ≠ "5" ∧ f.2 ≠ "5" ∧ f.1 ≠ f.2))
    ∧ CheckCondition.checkOne
        [twoStmtQp "rankingweight" "p1" "c1" "rank title: 7, docDate: 5"
          "rank title: 9, docDate: 5"] ⟨"cdef", "c1"⟩ =
      Except.ok [Message.mk "cdef" "c1" (Reason.stmtMsg .multipleRankingweights "p1"
        "rank title: 7, docDate: 5" "rank title: 9, docDate: 5")]
    ∧ CheckCondition.checkOne
        [twoStmtQp "rankingweight" "p1" "c1" "rank title: 5, docDate: 5"
          "rank title: 9, docDate: 5"] ⟨"cdef", "c1"⟩ = Except.ok []
    ∧ renderStmtBase .multipleRankingweights = "MULTIPLE rankingweights ON SAME FACTOR" := by
  refine ⟨?_, rfl, rfl, rfl⟩
  intro d1 d2 qpName cid cdef
  rw [checkOne_twoStmt, pairMsgs_rank]
  by_cases h : CheckCondition.rankConflict d1 d2 = true
  · refine ⟨[Message.mk cdef cid (Reason.stmtMsg .multipleRankingweights qpName d1 d2)], ?_, ?_⟩
    · rw [if_pos h]
      simp [twoStmtQp]
    · simp only [List.mem_singleton]
      constructor
      · intro _
        exact (rankConflict_iff d1 d2).mp h
      · intro _
        trivial
  · refine ⟨[], ?_, ?_⟩
    · rw [if_neg h]
    · simp only [List.not_mem_nil, false_iff]
      intro hc
      exact h ((rankConflict_iff d1 d2).mpr hc)

theorem pairMsgs_override (qp : Qp) (cdef cid d1 d2 : String) (a b : String × String)
    (h1 : CheckCondition.parseOverride d1 = some a)
    (h2 : CheckCondition.parseOverride d2 = some b) :
    CheckCondition.pairMsgs ⟨cdef, cid⟩
        (qp, ⟨"queryParamOverride", d1, cid⟩) (qp, ⟨"queryParamOverride", d2, cid⟩) =
      Except.ok (if a.1 = b.1 ∧ a.2 ≠ b.2 then
        [Message.mk cdef cid (Reason.stmtMsg .multipleOverrideParameter qp.name d1 d2)]
      else []) := by
  simp [CheckCondition.pairMsgs, CheckCondition.pairConflicts, h1, h2]
  split <;> simp [Except.map]

theorem pairMsgs_override_err (qp : Qp) (cdef cid d1 d2 : String)
    (h : CheckCondition.parseOverride d1 = none ∨ CheckCondition.parseOverride d2 = none) :
    CheckCondition.pairMsgs ⟨cdef, cid⟩
        (qp, ⟨"queryParamOverride", d1, cid⟩) (qp, ⟨"queryParamOverride", d2, cid⟩) =
      Except.error () := by
  rcases h with h | h
  · cases h2 : CheckCondition.parseOverride d2 <;>
      simp [CheckCondition.pairMsgs, CheckCondition.pairConflicts, h, h2, Except.map]
  · cases h1 : CheckCondition.parseOverride d1 <;>
      simp [CheckCondition.pairMsgs, CheckCondition.pairConflicts, h, h1, Except.map]

/-- Claim C6, counterexample: for the pair of queryParamOverride
statements `override query lq:"x:1"` and `override query lq:"x:2"` in
the same pipeline sharing a condition, the spec-side parse (name before
the first colon, value = the entire remainder) gives equal names and
different values — so the claim predicts a "MULTIPLE OVERRIDE
PARAMETER" message — yet the code emits no message at all, because
`split(':')[1]` only reaches to the second colon and both values parse
as `"x`. -/
theorem claim_C6_counterexample :
    CheckCondition.specOverrideName "override query lq:\"x:1\"" = some "query lq" ∧
    CheckCondition.specOverrideName "override query lq:\"x:2\"" = some "query lq" ∧
    CheckCondition.specOverrideValue "override query lq:\"x:1\"" = some "\"x:1\"" ∧
    CheckCondition.specOverrideValue "override query lq:\"x:2\"" = some "\"x:2\"" ∧
    ("\"x:1\"" : String) ≠ "\"x:2\"" ∧
    CheckCondition.parseOverride "override query lq:\"x:1\"" = some ("query lq", "\"x") ∧
    CheckCondition.parseOverride "override query lq:\"x:2\"" = some ("query lq", "\"x") ∧
    CheckCondition.checkOne
      [twoStmtQp "queryParamOverride" "p1" "c1" "override query lq:\"x:1\""
        "override query lq:\"x:2\""] ⟨"cdef", "c1"⟩ = Except.ok [] := by
  refine ⟨rfl, rfl, rfl, rfl, by decide, rfl, rfl, rfl⟩

/-- Claim C6, amended: for two queryParamOverride statements in the
same pipeline sharing a condition, `CheckCondition.checkOne` emits a
"MULTIPLE OVERRIDE PARAMETER" message exactly when the parsed parameter
names are equal and the parsed values differ, where the name is the
text between `override ` and the first colon but the value is
`definition.split(':')[1]` — the segment between the first and the
second colon (the entire remainder only when the definition has a
single colon), so values containing colons are compared only up to
their first internal colon; a definition with no colon or no
`override ` raises (modelled as `Except.error`). -/
theorem claim_C6_override_conflict_amended :
    (∀ (d1 d2 qpName cid cdef : String) (a b : String × String),
      CheckCondition.parseOverride d1 = some a →
      CheckCondition.parseOverride d2 = some b →
      ∃ msgs, CheckCondition.checkOne [twoStmtQp "queryParamOverride" qpName cid d1 d2]
          ⟨cdef, cid⟩ = Except.ok msgs ∧
        (Message.mk cdef cid (Reason.stmtMsg .multipleOverrideParameter qpName d1 d2) ∈ msgs ↔
          (a.1 = b.1 ∧ a.2 ≠ b.2)))
    ∧ (∀ (d1 d2 qpName cid cdef : String),
      CheckCondition.parseOverride d1 = none ∨ CheckCondition.parseOverride d2 = none →
      CheckCondition.checkOne [twoStmtQp "queryParamOverride" qpName cid d1 d2]
        ⟨cdef, cid⟩ = Except.error ())
    ∧ (∀ (d : String) (p : String × String), CheckCondition.parseOverride d = some p →
      CheckCondition.specOverrideName d = some p.1 ∧
        (CheckCondition.pySplit d ":").get? 1 = some p.2)
    ∧ renderStmtBase .multipleOverrideParameter = "MULTIPLE OVERRIDE PARAMETER" := by
  refine ⟨?_, ?_, ?_, rfl⟩
  · intro d1 d2 qpName cid cdef a b h1 h2
    rw [checkOne_twoStmt, pairMsgs_override _ _ _ _ _ a b h1 h2]
    by_cases h : a.1 = b.1 ∧ a.2 ≠ b.2
    · refine ⟨[Message.mk cdef cid
        (Reason.stmtMsg .multipleOverrideParameter qpName d1 d2)], ?_, ?_⟩
      · rw [if_pos h]
        simp [twoStmtQp]
      · simp only [List.mem_singleton]
        simpa using h
    · refine ⟨[], ?_, ?_⟩
      · rw [if_neg h]
      · simp only [List.not_mem_nil]
        simpa using h
  · intro d1 d2 qpName cid cdef h
    rw [checkOne_twoStmt, pairMsgs_override_err _ _ _ _ _ h]
  · intro d p h
    simp only [CheckCondition.parseOverride] at h
    split at h
    · next n v hn hv =>
      have hp := (Option.some_inj.mp h).symm
      subst hp
      exact ⟨hn, hv⟩
    · cases h

theorem claim_C6_witness :
    CheckCondition.parseOverride "override query lq:\"a\"" = some ("query lq", "\"a\"") ∧
    CheckCondition.parseOverride "override query lq:\"b\"" = some ("query lq", "\"b\"") ∧
    (∃ msgs, CheckCondition.checkOne
        [twoStmtQp "queryParamOverride" "p1" "c1" "override query lq:\"a\""
          "override query lq:\"b\""] ⟨"cdef", "c1"⟩ = Except.ok msgs ∧
      (Message.mk "cdef" "c1" (Reason.stmtMsg .multipleOverrideParameter "p1"
        "override query lq:\"a\"" "override query lq:\"b\"") ∈ msgs ↔
        (("query lq", "\"a\"").1 = ("query lq", "\"b\"").1 ∧
          ("query lq", "\"a\"").2 ≠ ("query lq", "\"b\"").2))) :=
  ⟨rfl, rfl, claim_C6_override_conflict_amended.1 "override query lq:\"a\""
    "override query lq:\"b\"" "p1" "c1" "cdef" ("query lq", "\"a\"")
    ("query lq", "\"b\"") rfl rfl⟩

theorem pairMsgs_ok_shape {c : Condition} {p q : Qp × Stmt} {ms : List Message}
    (h : CheckCondition.pairMsgs c p q = Except.ok ms) :
    ∀ m ∈ ms, m.name = c.definition ∧ m.id = c.id ∧
      ∃ b, m.reason = Reason.stmtMsg b p.1.name p.2.definition q.2.definition := by
  cases hc : CheckCondition.pairConflicts p q with
  | error e => simp [CheckCondition.pairMsgs, hc, except_map_error'] at h
  | ok bases =>
    simp only [CheckCondition.pairMsgs, hc, except_map_ok', Except.ok.injEq] at h
    subst h
    intro m hm
    rw [List.mem_map] at hm
    obtain ⟨b, _, rfl⟩ := hm
    exact ⟨rfl, rfl, b, rfl⟩

theorem foldlM_pair_shape (c : Condition) (sa : List (Qp × Stmt)) :
    ∀ (l : List (Nat × Nat)) (acc pm : List Message),
    (l.foldlM (fun acc ij => Except.map (fun ms => acc ++ ms)
      (CheckCondition.pairMsgs c (sa.getD ij.1 default) (sa.getD ij.2 default))) acc =
        Except.ok pm) →
    (∀ m ∈ acc, m.name = c.definition ∧ m.id = c.id ∧
      ∃ b x y z, m.reason = Reason.stmtMsg b x y z) →
    ∀ m ∈ pm, m.name = c.definition ∧ m.id = c.id ∧
      ∃ b x y z, m.reason = Reason.stmtMsg b x y z := by
  intro l
  induction l with
  | nil =>
    intro acc pm h hacc
    simp only [List.foldlM_nil] at h
    cases h
    exact hacc
  | cons ij l ih =>
    intro acc pm h hacc
    rw [List.foldlM_cons] at h
    cases hc : CheckCondition.pairMsgs c (sa.getD ij.1 default) (sa.getD ij.2 default) with
    | error e =>
      rw [hc, except_map_error', except_error_bind] at h
      cases h
    | ok ms =>
      rw [hc, except_map_ok', except_ok_bind] at h
      refine ih (acc ++ ms) pm h ?_
      intro m hm
      rcases List.mem_append.mp hm with hma | hms
      · exact hacc m hma
      · obtain ⟨h1, h2, b, hb⟩ := pairMsgs_ok_shape hc m hms
        exact ⟨h1, h2, b, _, _, _, hb⟩

theorem pairwiseMsgs_ok_shape {c : Condition} {sa : List (Qp × Stmt)} {pm : List Message}
    (h : CheckCondition.pairwiseMsgs c sa = Except.ok pm) :
    ∀ m ∈ pm, m.name = c.definition ∧ m.id = c.id ∧
      ∃ b x y z, m.reason = Reason.stmtMsg b x y z :=
  foldlM_pair_shape c sa _ [] pm h (by intro m hm; simp at hm)

/-- Claim C7: a condition other than the "NO CONDITION" sentinel that
is referenced by two or more pipelines yields exactly one
"CONFLICT: SHARED BY k QUERY PIPELINES ..." message, whose name list is
exactly the names of all sharing pipelines; the sentinel never yields
such a message, no matter how many pipelines lack a condition. -/
theorem claim_C7_shared_condition_conflict :
    (∀ (ctx : List Qp) (c : Condition) (msgs : List Message),
      c ≠ CheckCondition.noCondition →
      1 < (ctx.filter (fun qp => qp.condId == c.id)).length →
      CheckCondition.checkOne ctx c = Except.ok msgs →
      msgs.count (Message.mk c.definition c.id
        (Reason.conflictShared (ctx.filter (fun qp => qp.condId == c.id)).length
          ((ctx.filter (fun qp => qp.condId == c.id)).map Qp.name))) = 1 ∧
      (∀ m ∈ msgs, ∀ k ns, m.reason = Reason.conflictShared k ns →
        m = Message.mk c.definition c.id
          (Reason.conflictShared (ctx.filter (fun qp => qp.condId == c.id)).length
            ((ctx.filter (fun qp => qp.condId == c.id)).map Qp.name))))
    ∧ (∀ (ctx : List Qp) (msgs : List Message),
      CheckCondition.checkOne ctx CheckCondition.noCondition = Except.ok msgs →
      ∀ m ∈ msgs, ∀ k ns, m.reason ≠ Reason.conflictShared k ns)
    ∧ (∀ k ns, renderReason (Reason.conflictShared k ns) =
        "CONFLICT: SHARED BY " ++ toString k ++ " QUERY PIPELINES " ++
          String.intercalate "," ns) := by
  refine ⟨?_, ?_, fun k ns => rfl⟩
  · intro ctx c msgs hne hlen h
    simp only [CheckCondition.checkOne] at h
    cases hpw : CheckCondition.pairwiseMsgs c (ctx.flatMap fun qp =>
        (qp.statements.filter fun st => st.condId == c.id).map fun st => (qp, st)) with
    | error e =>
      rw [hpw, except_map_error'] at h
      cases h
    | ok pm =>
      rw [hpw, except_map_ok'] at h
      have hmsgs := (Except.ok.injEq _ _).mp h
      subst hmsgs
      rw [if_neg (by omega), if_pos ⟨hlen, hne⟩]
      have hshape := pairwiseMsgs_ok_shape hpw
      constructor
      · simp only [List.nil_append, List.singleton_append, List.count_cons]
        have hzero : pm.count (Message.mk c.definition c.id
            (Reason.conflictShared (ctx.filter (fun qp => qp.condId == c.id)).length
              ((ctx.filter (fun qp => qp.condId == c.id)).map Qp.name))) = 0 := by
          apply List.count_eq_zero.mpr
          intro hmem
          obtain ⟨_, _, b, x, y, z, hr⟩ := hshape _ hmem
          simp at hr
        rw [hzero]
        simp
      · intro m hm k ns hr
        simp only [List.nil_append, List.singleton_append] at hm
        rcases List.mem_cons.mp hm with rfl | hmem
        · rfl
        · obtain ⟨_, _, b, x, y, z, hr2⟩ := hshape _ hmem
          rw [hr] at hr2
          simp at hr2
  · intro ctx msgs h
    simp only [CheckCondition.checkOne] at h
    cases hpw : CheckCondition.pairwiseMsgs CheckCondition.noCondition (ctx.flatMap fun qp =>
        (qp.statements.filter fun st =>
          st.condId == CheckCondition.noCondition.id).map fun st => (qp, st)) with
    | error e =>
      rw [hpw, except_map_error'] at h
      cases h
    | ok pm =>
      rw [hpw, except_map_ok'] at h
      have hmsgs := (Except.ok.injEq _ _).mp h
      subst hmsgs
      have hshape := pairwiseMsgs_ok_shape hpw
      rw [if_neg (show ¬(1 < (ctx.filter (fun qp =>
          qp.condId == CheckCondition.noCondition.id)).length ∧
          CheckCondition.noCondition ≠ CheckCondition.noCondition) by simp)]
      intro m hm k ns
      rcases List.mem_append.mp hm with hm0 | hm1
      · by_cases hcond : ((ctx.filter (fun qp =>
            qp.condId == CheckCondition.noCondition.id)).length < 1 ∧
            (ctx.flatMap fun qp => (qp.statements.filter fun st =>
              st.condId == CheckCondition.noCondition.id).map fun st => (qp, st)).length < 1)
        · rw [if_pos hcond] at hm0
          rcases List.mem_singleton.mp hm0 with rfl
          simp
        · rw [if_neg hcond] at hm0
          simp at hm0
      · have hm2 : m ∈ pm := by simpa using hm1
        obtain ⟨_, _, b, x, y, z, hr⟩ := hshape _ hm2
        rw [hr]
        simp

theorem claim_C7_witness :
    ((⟨"cd", "c1"⟩ : Condition) ≠ CheckCondition.noCondition) ∧
    (1 < (([⟨"p1", "c1", []⟩, ⟨"p2", "c1", []⟩] : List Qp).filter
      (fun qp => qp.condId == (⟨"cd", "c1"⟩ : Condition).id)).length) ∧
    CheckCondition.checkOne [⟨"p1", "c1", []⟩, ⟨"p2", "c1", []⟩] ⟨"cd", "c1"⟩ =
      Except.ok [Message.mk "cd" "c1" (Reason.conflictShared 2 ["p1", "p2"])] ∧
    ([Message.mk "cd" "c1" (Reason.conflictShared 2 ["p1", "p2"])] : List Message).count
      (Message.mk "cd" "c1" (Reason.conflictShared
        (([⟨"p1", "c1", []⟩, ⟨"p2", "c1", []⟩] : List Qp).filter
          (fun qp => qp.condId == (⟨"cd", "c1"⟩ : Condition).id)).length
        ((([⟨"p1", "c1", []⟩, ⟨"p2", "c1", []⟩] : List Qp).filter
          (fun qp => qp.condId == (⟨"cd", "c1"⟩ : Condition).id)).map Qp.name))) = 1 := by
  refine ⟨by decide, by decide, rfl, ?_⟩
  exact (claim_C7_shared_condition_conflict.1 [⟨"p1", "c1", []⟩, ⟨"p2", "c1", []⟩]
    ⟨"cd", "c1"⟩ [Message.mk "cd" "c1" (Reason.conflictShared 2 ["p1", "p2"])]
    (by decide) (by decide) rfl).1

/-- Claim C10: `CheckCondition.initialize` excludes every pipeline whose
name contains `-mirror-` from the working pipeline set, so a condition
referenced only by such mirror pipelines (directly or through their
statements) is invisible to the orphan and shared-condition rules, and
`checkOne` reports it as "NOT ASSOCIATED WITH ANY QUERY PIPELINE OR
STATEMENT" (and nothing else). -/
theorem claim_C10_mirror_pipelines :
    (∀ (qps : List Qp) (qp : Qp),
      qp ∈ CheckCondition.filterMirrorQps qps ↔
        qp ∈ qps ∧ ¬ ("-mirror-".data <:+: qp.name.data))
    ∧ (∀ (qps : List Qp) (c : Condition),
      (∀ qp ∈ qps, ¬ ("-mirror-".data <:+: qp.name.data) →
        qp.condId ≠ c.id ∧ ∀ st ∈ qp.statements, st.condId ≠ c.id) →
      CheckCondition.checkOne (CheckCondition.filterMirrorQps qps) c =
        Except.ok [Message.mk c.definition c.id Reason.notAssociated])
    ∧ renderReason Reason.notAssociated =
        "NOT ASSOCIATED WITH ANY QUERY PIPELINE OR STATEMENT" := by
  refine ⟨?_, ?_, rfl⟩
  · intro qps qp
    rw [CheckCondition.filterMirrorQps, List.mem_filter]
    simp
  · intro qps c h
    have hmem : ∀ qp ∈ CheckCondition.filterMirrorQps qps,
        qp ∈ qps ∧ ¬ ("-mirror-".data <:+: qp.name.data) := by
      intro qp hqp
      rw [CheckCondition.filterMirrorQps, List.mem_filter] at hqp
      refine ⟨hqp.1, ?_⟩
      simpa using hqp.2
    have hq : (CheckCondition.filterMirrorQps qps).filter
        (fun qp => qp.condId == c.id) = [] := by
      apply List.filter_eq_nil_iff.mpr
      intro qp hqp
      obtain ⟨hin, hnm⟩ := hmem qp hqp
      have hne := (h qp hin hnm).1
      simpa using hne
    have hs : (CheckCondition.filterMirrorQps qps).flatMap (fun qp =>
        (qp.statements.filter fun st => st.condId == c.id).map fun st => (qp, st)) = [] := by
      apply List.flatMap_eq_nil_iff.mpr
      intro qp hqp
      obtain ⟨hin, hnm⟩ := hmem qp hqp
      have h2 := (h qp hin hnm).2
      have hfil : qp.statements.filter (fun st => st.condId == c.id) = [] := by
        apply List.filter_eq_nil_iff.mpr
        intro st hst
        simpa using h2 st hst
      rw [hfil]
      rfl
    have hpw0 : CheckCondition.pairwiseMsgs c [] = Except.ok [] := rfl
    simp only [CheckCondition.checkOne, hq, hs, hpw0, except_map_ok']
    simp

theorem claim_C10_witness :
    CheckCondition.filterMirrorQps [⟨"a-mirror-1", "c1", []⟩] = [] ∧
    ("-mirror-".data <:+: ("a-mirror-1" : String).data) ∧
    CheckCondition.checkOne (CheckCondition.filterMirrorQps [⟨"a-mirror-1", "c1", []⟩])
      ⟨"cd", "c1"⟩ = Except.ok [Message.mk "cd" "c1" Reason.notAssociated] := by
  refine ⟨by decide, by decide, ?_⟩
  apply claim_C10_mirror_pipelines.2.1
  intro qp hqp hnm
  rcases List.mem_singleton.mp hqp with rfl
  exact absurd (by decide) hnm

theorem findBadOcc_spec :
    ∀ (recs : List UaRecord), (∃ r ∈ recs, r.occurrenceCount ≤ 0) →
    ∃ rq, findBadOcc recs = some rq ∧ rq ∈ recs ∧ rq.occurrenceCount ≤ 0 := by
  intro recs
  induction recs with
  | nil => rintro ⟨r, hr, _⟩; cases hr
  | cons a l ih =>
    rintro ⟨r, hr, hocc⟩
    by_cases ha : a.occurrenceCount ≤ 0
    · exact ⟨a, by simp [findBadOcc, ha], List.mem_cons_self a l, ha⟩
    · have hrl : r ∈ l := by
        rcases List.mem_cons.mp hr with rfl | hrl
        · exact absurd hocc ha
        · exact hrl
      obtain ⟨rq, h1, h2, h3⟩ := ih ⟨r, hrl, hocc⟩
      exact ⟨rq, by simp [findBadOcc, ha, h1], List.mem_cons_of_mem a h2, h3⟩

theorem fieldsWithUa_err :
    ∀ (recs : List UaRecord), (∃ r ∈ recs, r.occurrenceCount ≤ 0) →
    ∃ rf, CheckField.fieldsWithUa recs = Except.error rf ∧ rf ∈ recs ∧
      rf.occurrenceCount ≤ 0 := by
  intro recs
  induction recs with
  | nil => rintro ⟨r, hr, _⟩; cases hr
  | cons a l ih =>
    rintro ⟨r, hr, hocc⟩
    by_cases ha : a.occurrenceCount ≤ 0
    · exact ⟨a, by simp [CheckField.fieldsWithUa, ha], List.mem_cons_self a l, ha⟩
    · have hrl : r ∈ l := by
        rcases List.mem_cons.mp hr with rfl | hrl
        · exact absurd hocc ha
        · exact hrl
      obtain ⟨rf, h1, h2, h3⟩ := ih ⟨r, hrl, hocc⟩
      refine ⟨rf, ?_, List.mem_cons_of_mem a h2, h3⟩
      simp [CheckField.fieldsWithUa, ha, h1, except_map_error']

/-- Claim C8: whenever some usage record returned by the analytics
capability during `CheckQp.initialize` or `CheckField.initialize` has a
non-positive occurrence count, initialization fails loudly with an
error carrying a non-positive record from the list (the `ValueError`
naming the record); no resource/name list is returned and the record is
not silently dropped. -/
theorem claim_C8_nonpositive_occurrence :
    ∀ (recs : List UaRecord) (r : UaRecord), r ∈ recs → r.occurrenceCount ≤ 0 →
      (∃ rq, CheckQp.uaNames recs = Except.error rq ∧ rq ∈ recs ∧
        rq.occurrenceCount ≤ 0) ∧
      (∃ rf, CheckField.fieldsWithUa recs = Except.error rf ∧ rf ∈ recs ∧
        rf.occurrenceCount ≤ 0) := by
  intro recs r hr hocc
  constructor
  · obtain ⟨rq, h1, h2, h3⟩ := findBadOcc_spec recs ⟨r, hr, hocc⟩
    exact ⟨rq, by simp [CheckQp.uaNames, h1], h2, h3⟩
  · exact fieldsWithUa_err recs ⟨r, hr, hocc⟩

theorem claim_C8_witness :
    ((⟨0, "b"⟩ : UaRecord) ∈ ([⟨2, "a"⟩, ⟨0, "b"⟩] : List UaRecord)) ∧
    ((⟨0, "b"⟩ : UaRecord).occurrenceCount ≤ 0) ∧
    (∃ rq, CheckQp.uaNames [⟨2, "a"⟩, ⟨0, "b"⟩] = Except.error rq ∧
      rq ∈ ([⟨2, "a"⟩, ⟨0, "b"⟩] : List UaRecord) ∧ rq.occurrenceCount ≤ 0) ∧
    (∃ rf, CheckField.fieldsWithUa [⟨2, "a"⟩, ⟨0, "b"⟩] = Except.error rf ∧
      rf ∈ ([⟨2, "a"⟩, ⟨0, "b"⟩] : List UaRecord) ∧ rf.occurrenceCount ≤ 0) := by
  have h := claim_C8_nonpositive_occurrence [⟨2, "a"⟩, ⟨0, "b"⟩] ⟨0, "b"⟩
    (by decide) (by decide)
  exact ⟨by decide, by decide, h.1, h.2⟩

/-- Claim C9: `CheckResource.check` never returns `True`: its `finally`
block evaluates `writer.f.close()`, but `CsvWriter.__init__` defines
only the attributes `fileName`, `fileDesc` and `w`, so the attribute
lookup of `f` raises `AttributeError` on every call — replacing
whatever the `try` body did, even a fully successful run. -/
theorem claim_C9_check_always_raises :
    (∀ body : PyResult Bool, CheckResource.check body = PyResult.exn "AttributeError") ∧
    (∀ body : PyResult Bool, CheckResource.check body ≠ PyResult.ok true) ∧
    csvWriterGetAttr "f" = none := by
  refine ⟨fun body => rfl, fun body h => ?_, rfl⟩
  rw [show CheckResource.check body = PyResult.exn "AttributeError" from rfl] at h
  cases h
